import Mathlib

/-!
# Pdf-Extension: discovery (`content.js`) and retrieval (`background.js`)

A shallow embedding of the two scripts of the extension.

* JavaScript strings are lists of characters (`Str`). Every character the code
  inspects (`< > : " / \ | ? * . #`, the white space removed by `trim`, the
  letters of `.pdf`) is a single UTF-16 code unit, so working on characters
  instead of code units does not change what the functions compute.
* `null` / `undefined` are `none`; a thrown exception or a rejected promise is
  `Except.error` carrying the error's `message`.
* Browser built-ins the scripts call (`new URL`, `decodeURIComponent`, `fetch`,
  `chrome.*`) are parameters of the embedding.
-/

namespace PdfExtension

/-- A JavaScript string. -/
abbrev Str := List Char

/-! ## String helpers of the JavaScript runtime -/

/-- Truthiness of a string value: every string but the empty one. -/
def truthy (s : Str) : Bool := !s.isEmpty

/-- Truthiness of a possibly `null`/`undefined` string. -/
def truthyOpt : Option Str → Bool
  | none => false
  | some s => truthy s

/-- The code points `String.prototype.trim` removes: WhiteSpace and
LineTerminator of ECMAScript. -/
def isJSWhitespace (c : Char) : Bool :=
  let n := c.toNat
  n = 0x09 || n = 0x0A || n = 0x0B || n = 0x0C || n = 0x0D || n = 0x20 ||
  n = 0xA0 || n = 0x1680 || (0x2000 ≤ n && n ≤ 0x200A) || n = 0x2028 ||
  n = 0x2029 || n = 0x202F || n = 0x205F || n = 0x3000 || n = 0xFEFF

/-- The method `s.trim()`. -/
def trim (s : Str) : Str :=
  ((s.dropWhile isJSWhitespace).reverse.dropWhile isJSWhitespace).reverse

/-- The method `s.startsWith(p)`. -/
def startsWith (s p : Str) : Bool := p.isPrefixOf s

/-- The method `s.endsWith(p)`. -/
def endsWith (s p : Str) : Bool := p.isSuffixOf s

/-- The method `s.includes(p)`. -/
def includes : Str → Str → Bool
  | [], p => p.isEmpty
  | c :: s, p => p.isPrefixOf (c :: s) || includes s p

/-- The first piece of `s.split(sep)` for a one-character separator:
`s.split(sep)[0]`. -/
def splitHead (sep : Char) (s : Str) : Str := s.takeWhile (· != sep)

/-- The last piece of `s.split(sep)` for a one-character separator:
`s.split(sep).pop()`. -/
def splitLast (sep : Char) (s : Str) : Str :=
  (s.reverse.takeWhile (· != sep)).reverse

/-! ## Name sanitizer (`content.js` 124-130, `background.js` 140-146) -/

/-- The character class `[<>:"/\\|?*]`. -/
def isReserved (c : Char) : Bool :=
  c = '<' || c = '>' || c = ':' || c = '"' || c = '/' || c = '\\' ||
  c = '|' || c = '?' || c = '*'

/-- The function `sanitizeFilename(filename)`:
`filename.replace(/[<>:"/\\|?*]/g, '_').replace(/^\.+/, '').trim()`. -/
def sanitizeFilename (filename : Str) : Str :=
  trim ((filename.map (fun c => if isReserved c then '_' else c)).dropWhile (· == '.'))

/-! ## Reference extractor (`content.js`) -/

/-- The two built-ins `content.js` calls on strings. `urlPathname url` is
`new URL(url).pathname`, `decodeURIComponent s` is the function of that name;
each is `Except.error` with the exception's message when the built-in throws. -/
structure Builtins where
  urlPathname : Str → Except Str Str
  decodeURIComponent : Str → Except Str Str

/-- The character class `[^/?#]`. -/
def isSegmentChar (c : Char) : Bool := c != '/' && c != '?' && c != '#'

/-- Does `s` match `[^/?#]+\.pdf` (flag `i`) as a whole, given that all its
characters are in `[^/?#]`: at least one character, then `.pdf` in any case. -/
def endsWithDotPdf (s : Str) : Bool :=
  decide (5 ≤ s.length) && ((s.drop (s.length - 4)).map Char.toLower == ".pdf".toList)

/-- The capture of the greedy group `([^/?#]+\.pdf)` inside a run of
`[^/?#]` characters: the longest prefix of the run that matches. -/
def longestPdfPrefix (run : Str) : Option Str :=
  run.inits.reverse.find? endsWithDotPdf

/-- The capture `match[1]` of `url.match(/\/([^/?#]+\.pdf)/i)`, or `none` when
there is no match: the leftmost `/` after which the group matches. -/
def matchPdfSegment : Str → Option Str
  | [] => none
  | c :: rest =>
    if c = '/' then
      match longestPdfPrefix (rest.takeWhile isSegmentChar) with
      | some m => some m
      | none => matchPdfSegment rest
    else matchPdfSegment rest

/-- The function `extractFilenameFromURL(url)` of `content.js` (103-122). The
result is `Except.error` when the function throws, which it does only when the
`decodeURIComponent` of its `catch` block throws. -/
def extractFilenameFromURL (b : Builtins) (url : Str) : Except Str (Option Str) :=
  let tryBlock : Except Str (Option Str) :=
    match b.urlPathname url with
    | .error e => .error e
    | .ok pathname =>
      let filename := splitLast '/' pathname
      let filename := splitHead '#' (splitHead '?' filename)
      if filename = [] then .ok none
      else
        match b.decodeURIComponent filename with
        | .error e => .error e
        | .ok decoded => .ok (some decoded)
  match tryBlock with
  | .ok r => .ok r
  | .error _ =>
    match matchPdfSegment url with
    | none => .ok none
    | some m =>
      match b.decodeURIComponent m with
      | .error e => .error e
      | .ok decoded => .ok (some decoded)

/-- An `a` element: its `href` attribute (`getAttribute('href')`), its resolved
`href` property and its `textContent`. -/
structure Anchor where
  hrefAttr : Option Str
  href : Str
  textContent : Str
deriving DecidableEq, Repr

/-- The three element kinds of the embedded-content scan. -/
inductive EmbedTag where
  | iframe
  | embed
  | object
deriving DecidableEq, Repr

/-- An `iframe`, `embed` or `object` element: its `src` and `data` attributes
and the properties `.src` and `.data` (`none` is `undefined`). -/
structure Embed where
  tag : EmbedTag
  srcAttr : Option Str
  dataAttr : Option Str
  src : Option Str
  data : Option Str
deriving DecidableEq, Repr

/-- What `findPDFs` reads of the page: `window.location.protocol`, the `a`
elements and the `iframe`/`embed`/`object` elements, each in document order. -/
structure Document where
  protocol : Str
  anchors : List Anchor
  embeds : List Embed
deriving DecidableEq, Repr

/-- The record `{ url, filename, linkText, size }` pushed by `findPDFs` and
received by `downloadPDFs`. -/
structure PdfRef where
  url : Str
  filename : Str
  linkText : Str
  size : Option Nat
deriving DecidableEq, Repr

/-- The locals `pdfs` and `seenURLs` of `findPDFs`. -/
structure ScanState where
  pdfs : List PdfRef
  seenURLs : List Str
deriving DecidableEq, Repr

/-- The selector `a[href$=".pdf"], a[href*=".pdf?"], a[href*=".pdf#"]`. -/
def matchesPdfLink (a : Anchor) : Bool :=
  match a.hrefAttr with
  | none => false
  | some h =>
    endsWith h ".pdf".toList || includes h ".pdf?".toList || includes h ".pdf#".toList

/-- The selector `iframe[src*=".pdf"], embed[src*=".pdf"], object[data*=".pdf"]`. -/
def matchesPdfEmbed (e : Embed) : Bool :=
  match e.tag with
  | .iframe | .embed =>
    (match e.srcAttr with
     | none => false
     | some v => includes v ".pdf".toList)
  | .object =>
    (match e.dataAttr with
     | none => false
     | some v => includes v ".pdf".toList)

/-- The body of `links.forEach` (Method 1, lines 33-51). -/
def scanLink (b : Builtins) (st : ScanState) (link : Anchor) : ScanState :=
  let url := link.href
  if !truthy url || decide (url ∈ st.seenURLs) then st
  else
    match extractFilenameFromURL b url with
    | .error _ => st
    | .ok extracted =>
      let text := trim link.textContent
      let filename :=
        if truthyOpt extracted then extracted.getD []
        else if truthy text then text
        else "document.pdf".toList
      { pdfs := st.pdfs ++ [{ url := url, filename := sanitizeFilename filename,
                              linkText := text, size := none }],
        seenURLs := st.seenURLs ++ [url] }

/-- The body of `embeds.forEach` (Method 2, lines 56-74). -/
def scanEmbed (b : Builtins) (st : ScanState) (embed : Embed) : ScanState :=
  let url : Option Str := if truthyOpt embed.src then embed.src else embed.data
  match url with
  | none => st
  | some url =>
    if !truthy url || !includes url ".pdf".toList || decide (url ∈ st.seenURLs) then st
    else
      match extractFilenameFromURL b url with
      | .error _ => st
      | .ok extracted =>
        let filename :=
          if truthyOpt extracted then extracted.getD [] else "embedded.pdf".toList
        { pdfs := st.pdfs ++ [{ url := url, filename := sanitizeFilename filename,
                                linkText := "Embedded PDF".toList, size := none }],
          seenURLs := st.seenURLs ++ [url] }

/-- The body of `fileLinks.forEach` (Method 3, lines 79-97). The test
`href.toLowerCase().endsWith('.pdf')` looks at the last four characters only,
where lower-casing is that of the ASCII letters. -/
def scanFileLink (b : Builtins) (st : ScanState) (link : Anchor) : ScanState :=
  match link.hrefAttr with
  | none => st
  | some href =>
    if truthy href && endsWith (href.map Char.toLower) ".pdf".toList then
      let url := link.href
      if decide (url ∈ st.seenURLs) then st
      else
        match b.decodeURIComponent href with
        | .error _ => st
        | .ok decoded =>
          let text := trim link.textContent
          { pdfs := st.pdfs ++ [{ url := url, filename := sanitizeFilename decoded,
                                  linkText := if truthy text then text else href,
                                  size := none }],
            seenURLs := st.seenURLs ++ [url] }
    else st

/-- The state of `findPDFs` after Method 1 and Method 2. -/
def scanLinksAndEmbeds (b : Builtins) (doc : Document) : ScanState :=
  let st : ScanState := { pdfs := [], seenURLs := [] }
  let st := (doc.anchors.filter matchesPdfLink).foldl (scanLink b) st
  (doc.embeds.filter matchesPdfEmbed).foldl (scanEmbed b) st

/-- The function `findPDFs()` (`content.js` 26-101). -/
def findPDFs (b : Builtins) (doc : Document) : List PdfRef :=
  let st := scanLinksAndEmbeds b doc
  let st :=
    if doc.protocol = "file:".toList ∧ st.pdfs.length = 0 then
      (doc.anchors.filter (fun a => a.hrefAttr.isSome)).foldl (scanFileLink b) st
    else st
  st.pdfs

/-! ## Retrieval (`background.js`)

The browser is a world `W` that every collaborator call reads and changes; a
`Chrome W` gives the answer of each collaborator in each world, and every call
is appended to a trace. A call whose answer the code awaits (a promise, or a
callback that settles an awaited promise) is taken at its settlement: the
embedding covers the runs in which every such collaborator answers. The
callback of `chrome.storage.local.get` is not awaited: the call is traced at
once and its callback is kept as pending, to run when the browser answers. -/

/-- The argument of `chrome.downloads.download`. -/
structure DownloadOptions where
  url : Str
  filename : Str
  saveAs : Bool
  conflictAction : Str
deriving DecidableEq, Repr

/-- What the code reads of a `fetch` response: `ok`, `status`, and the
settlement of `response.blob()` (a blob handle, or the rejection's message). -/
structure FetchResponse where
  ok : Bool
  status : Nat
  blob : Except Str Nat

/-- The message sent to the content script. -/
structure Message where
  action : Str
  url : Str
  filename : Str
deriving DecidableEq, Repr

/-- A tab of the answer of `chrome.tabs.query`. -/
structure Tab where
  id : Nat
deriving DecidableEq, Repr

/-- The acknowledgement `{ success, error }` of the content script. -/
structure Ack where
  success : Bool
  error : Option Str
deriving DecidableEq, Repr

/-- How the callback of `chrome.tabs.sendMessage` is entered: with
`chrome.runtime.lastError` set (and no response), or with a response, which may
be `undefined`. -/
inductive SendOutcome where
  | lastError (message : Str)
  | response (r : Option Ack)
deriving DecidableEq, Repr

/-- A collaborator call made by `background.js`. -/
inductive Event where
  | fetch (url : Str)
  | createObjectURL (blob : Nat)
  | download (opts : DownloadOptions)
  | revokeScheduled (blobUrl : Str) (delayMs : Nat)
  | tabsQuery
  | sendMessage (tabId : Nat) (msg : Message)
  | storageGet
  | notification (title : Str) (message : Str)
deriving DecidableEq, Repr

/-- The collaborators. `download` answers with the download id, or with the
message of `chrome.runtime.lastError`; `fetch` and `tabsQuery` answer with
their value or with the message of the rejection; `createObjectURL` answers
with the object url, or with the message of the exception it throws (as where
`URL.createObjectURL` is not a function); `showNotifications` is the stored
setting (`none` when absent). -/
structure Chrome (W : Type) where
  fetch : Str → W → Except Str FetchResponse × W
  createObjectURL : Nat → W → Except Str Str × W
  download : DownloadOptions → W → Except Str Nat × W
  tabsQuery : W → Except Str (List Tab) × W
  sendMessage : Nat → Message → W → SendOutcome × W
  showNotifications : W → Option Bool × W

/-- The world, the trace of the collaborator calls made so far, and the
callbacks registered with `chrome.storage.local.get` that have not run yet,
each with the title and the message of the notification it creates. -/
structure Sys (W : Type) where
  world : W
  trace : List Event
  pending : List (Str × Str)

/-- The value a retrieval resolves with: `{ downloadId, filename, method }`. -/
structure DownloadResult where
  downloadId : Option Nat
  filename : Str
  method : Option Str
deriving DecidableEq, Repr

/-- An entry of `results`: `{ pdf, success, result }` or `{ pdf, success, error }`. -/
structure Outcome where
  pdf : PdfRef
  success : Bool
  result : Option DownloadResult
  error : Option Str
deriving DecidableEq, Repr

section Retrieval

variable {W : Type}

/-- Append a call to the trace. -/
def record (e : Event) (w : W) (s : Sys W) : Sys W :=
  { world := w, trace := s.trace ++ [e], pending := s.pending }

/-- The call `fetch(url)`. -/
def callFetch (c : Chrome W) (url : Str) (s : Sys W) : Except Str FetchResponse × Sys W :=
  ((c.fetch url s.world).1, record (.fetch url) (c.fetch url s.world).2 s)

/-- The call `URL.createObjectURL(blob)`. -/
def callCreateObjectURL (c : Chrome W) (blob : Nat) (s : Sys W) : Except Str Str × Sys W :=
  ((c.createObjectURL blob s.world).1,
   record (.createObjectURL blob) (c.createObjectURL blob s.world).2 s)

/-- The call `chrome.downloads.download(opts, callback)`. -/
def callDownload (c : Chrome W) (opts : DownloadOptions) (s : Sys W) : Except Str Nat × Sys W :=
  ((c.download opts s.world).1, record (.download opts) (c.download opts s.world).2 s)

/-- The call `chrome.tabs.query({ active: true, currentWindow: true })`. -/
def callTabsQuery (c : Chrome W) (s : Sys W) : Except Str (List Tab) × Sys W :=
  ((c.tabsQuery s.world).1, record .tabsQuery (c.tabsQuery s.world).2 s)

/-- The call `chrome.tabs.sendMessage(tabId, msg, callback)`. -/
def callSendMessage (c : Chrome W) (tabId : Nat) (msg : Message) (s : Sys W) :
    SendOutcome × Sys W :=
  ((c.sendMessage tabId msg s.world).1,
   record (.sendMessage tabId msg) (c.sendMessage tabId msg s.world).2 s)

/-- The message `{ action: "downloadLocalFile", url: pdf.url, filename:
pdf.filename }` of `useContentScriptDownload` (lines 124-128). -/
def fallbackMessage (pdf : PdfRef) : Message :=
  { action := "downloadLocalFile".toList, url := pdf.url, filename := pdf.filename }

/-- The function `useContentScriptDownload(pdf)` (`background.js` 114-138). -/
def useContentScriptDownload (c : Chrome W) (pdf : PdfRef) (s : Sys W) :
    Except Str DownloadResult × Sys W :=
  let q := callTabsQuery c s
  match q.1 with
  | .error e => (.error e, q.2)
  | .ok [] => (.error "No active tab found".toList, q.2)
  | .ok (tab :: _) =>
    let m := callSendMessage c tab.id (fallbackMessage pdf) q.2
    match m.1 with
    | .lastError message => (.error message, m.2)
    | .response none => (.error "Content script download failed".toList, m.2)
    | .response (some ack) =>
      if !ack.success then (.error "Content script download failed".toList, m.2)
      else (.ok { downloadId := none, filename := pdf.filename,
                  method := some "content-script".toList }, m.2)

/-- The `try` block of `handleLocalFileDownload` (lines 79-106): `Except.error`
when it throws (the awaited `fetch` or `blob()` rejects, the status is not ok,
or `URL.createObjectURL` throws), else the settlement of the promise it
returns, which is not awaited. -/
def handleLocalFileDownloadTry (c : Chrome W) (pdf : PdfRef) (s : Sys W) :
    Except Str (Except Str DownloadResult) × Sys W :=
  let f := callFetch c pdf.url s
  match f.1 with
  | .error e => (.error e, f.2)
  | .ok response =>
    if !response.ok then
      (.error ("Fetch failed: ".toList ++ (Nat.repr response.status).toList), f.2)
    else
      match response.blob with
      | .error e => (.error e, f.2)
      | .ok blob =>
        let u := callCreateObjectURL c blob f.2
        match u.1 with
        | .error e => (.error e, u.2)
        | .ok blobUrl =>
          let d := callDownload c
            { url := blobUrl, filename := sanitizeFilename pdf.filename, saveAs := false,
              conflictAction := "uniquify".toList } u.2
          let s3 := record (.revokeScheduled blobUrl 1000) d.2.world d.2
          match d.1 with
          | .error message => (.ok (.error message), s3)
          | .ok downloadId =>
            (.ok (.ok { downloadId := some downloadId, filename := pdf.filename,
                        method := some "blob".toList }), s3)

/-- The function `handleLocalFileDownload(pdf)` (`background.js` 78-112). -/
def handleLocalFileDownload (c : Chrome W) (pdf : PdfRef) (s : Sys W) :
    Except Str DownloadResult × Sys W :=
  let t := handleLocalFileDownloadTry c pdf s
  match t.1 with
  | .ok settled => (settled, t.2)
  | .error _ => useContentScriptDownload c pdf t.2

/-- The function `downloadSinglePDF(pdf)` (`background.js` 53-76). -/
def downloadSinglePDF (c : Chrome W) (pdf : PdfRef) (s : Sys W) :
    Except Str DownloadResult × Sys W :=
  let downloadUrl := pdf.url
  if startsWith downloadUrl "file://".toList then handleLocalFileDownload c pdf s
  else
    let d := callDownload c
      { url := downloadUrl, filename := sanitizeFilename pdf.filename, saveAs := false,
        conflictAction := "uniquify".toList } s
    match d.1 with
    | .error message => (.error message, d.2)
    | .ok downloadId =>
      (.ok { downloadId := some downloadId, filename := pdf.filename, method := none }, d.2)

/-- The call `chrome.storage.local.get(['showNotifications'], callback)` of
lines 22 and 38: the call is made at once; its callback, which is not awaited,
is registered as pending with the title and the message of its notification. -/
def notify (title message : Str) (s : Sys W) : Sys W :=
  { world := s.world, trace := s.trace ++ [.storageGet],
    pending := s.pending ++ [(title, message)] }

/-- A callback of `chrome.storage.local.get` being run with the stored
settings: it creates the notification unless `showNotifications` is `false`. -/
def runCallback (c : Chrome W) (s : Sys W) (callback : Str × Str) : Sys W :=
  if (c.showNotifications s.world).1 = some false then
    { world := (c.showNotifications s.world).2, trace := s.trace, pending := s.pending }
  else
    record (.notification callback.1 callback.2) (c.showNotifications s.world).2 s

/-- The pending callbacks being run, in the order of their registration. -/
def runPending (c : Chrome W) (s : Sys W) : Sys W :=
  s.pending.foldl (runCallback c) { world := s.world, trace := s.trace, pending := [] }

/-- The loop `for (const pdf of pdfs)` of `downloadPDFs` (lines 13-33), with
the array `results` built so far. -/
def downloadLoop (c : Chrome W) : List PdfRef → List Outcome → Sys W → List Outcome × Sys W
  | [], results, s => (results, s)
  | pdf :: rest, results, s =>
    match (downloadSinglePDF c pdf s).1 with
    | .ok result =>
      downloadLoop c rest
        (results ++ [{ pdf := pdf, success := true, result := some result, error := none }])
        (downloadSinglePDF c pdf s).2
    | .error message =>
      downloadLoop c rest
        (results ++ [{ pdf := pdf, success := false, result := none, error := some message }])
        (notify "Download Failed".toList ("Failed to download: ".toList ++ pdf.filename)
          (downloadSinglePDF c pdf s).2)

/-- The function `downloadPDFs(pdfs)` (`background.js` 10-51): the settlement
of the promise it returns, and the system afterwards. -/
def downloadPDFs (c : Chrome W) (pdfs : List PdfRef) (s : Sys W) :
    Except Str (List Outcome) × Sys W :=
  let l := downloadLoop c pdfs [] s
  let successfulDownloads := (l.1.filter (fun r => r.success)).length
  let s1 :=
    if successfulDownloads > 0 then
      notify "Download Complete".toList
        ("Successfully downloaded ".toList ++ (Nat.repr successfulDownloads).toList ++
          " PDF(s)".toList) l.2
    else l.2
  (.ok l.1, s1)

end Retrieval

/-! ## A concrete browser

The built-ins on which the examples are evaluated. `decodeURIComponent` follows
ECMAScript (`Decode` with an empty reserved set); `urlPathname` is the WHATWG
parser without a base url, for urls it leaves unchanged: their path needs no
normalisation. -/

/-- The value of a hexadecimal digit. -/
def hexDigit (c : Char) : Option Nat :=
  if '0' ≤ c ∧ c ≤ '9' then some (c.toNat - 48)
  else if 'a' ≤ c ∧ c ≤ 'f' then some (c.toNat - 87)
  else if 'A' ≤ c ∧ c ≤ 'F' then some (c.toNat - 55)
  else none

/-- Read one escape `%XX` at the head of the string: its byte and the rest. -/
def readEscape : Str → Option (Nat × Str)
  | '%' :: h :: l :: rest =>
    match hexDigit h, hexDigit l with
    | some a, some b => some (16 * a + b, rest)
    | _, _ => none
  | _ => none

/-- Read `n` escapes that are UTF-8 continuation bytes (`10xxxxxx`). -/
def readContinuation : Nat → Str → Option (List Nat × Str)
  | 0, s => some ([], s)
  | n + 1, s =>
    match readEscape s with
    | none => none
    | some (byte, rest) =>
      if byte / 64 = 2 then
        match readContinuation n rest with
        | none => none
        | some (bytes, rest1) => some (byte :: bytes, rest1)
      else none

/-- The loop of `Decode`, with fuel for the characters still to read. -/
def decodeLoop : Nat → Str → Except Str Str
  | 0, _ => .ok []
  | _ + 1, [] => .ok []
  | fuel + 1, c :: rest =>
    if c ≠ '%' then
      match decodeLoop fuel rest with
      | .error e => .error e
      | .ok out => .ok (c :: out)
    else
      match readEscape (c :: rest) with
      | none => .error "URI malformed".toList
      | some (byte, rest1) =>
        if byte < 128 then
          match decodeLoop fuel rest1 with
          | .error e => .error e
          | .ok out => .ok (Char.ofNat byte :: out)
        else
          let n := if byte / 32 = 6 then 1 else if byte / 16 = 14 then 2
                   else if byte / 8 = 30 then 3 else 0
          if n = 0 then .error "URI malformed".toList
          else
            match readContinuation n rest1 with
            | none => .error "URI malformed".toList
            | some (bytes, rest2) =>
              let v := bytes.foldl (fun acc x => acc * 64 + x % 64) (byte % 2 ^ (6 - n))
              let least := if n = 1 then 128 else if n = 2 then 2048 else 65536
              if v < least ∨ 1114111 < v ∨ (55296 ≤ v ∧ v ≤ 57343) then
                .error "URI malformed".toList
              else
                match decodeLoop fuel rest2 with
                | .error e => .error e
                | .ok out => .ok (Char.ofNat v :: out)

/-- The built-in `decodeURIComponent`. -/
def decodeURIComponent (s : Str) : Except Str Str := decodeLoop (s.length + 1) s

/-- A character of a URL scheme after its first letter. -/
def isSchemeChar (c : Char) : Bool := c.isAlphanum || c = '+' || c = '-' || c = '.'

/-- Split a URL at the `:` that ends its scheme: the scheme in lower case and
the text after the colon, or `none` when the string does not start with a
scheme (a letter, then letters, digits, `+`, `-`, `.`, then `:`). -/
def splitScheme : Str → Option (Str × Str)
  | [] => none
  | c :: rest =>
    if c.isAlpha then
      match rest.dropWhile isSchemeChar with
      | ':' :: tail => some ((c :: rest.takeWhile isSchemeChar).map Char.toLower, tail)
      | _ => none
    else none

/-- The special schemes of the URL standard. -/
def isSpecialScheme (scheme : Str) : Bool :=
  decide (scheme ∈ ["http".toList, "https".toList, "ftp".toList, "ws".toList,
    "wss".toList, "file".toList])

/-- The text before the query and the fragment. -/
def beforeQuery (s : Str) : Str := s.takeWhile (fun c => c != '?' && c != '#')

/-- The path that follows an authority: from the first `/` to the query or
fragment; an empty path of a special scheme is `/`. -/
def pathAfterAuthority (special : Bool) (s : Str) : Str :=
  let path := beforeQuery (s.dropWhile (fun c => c != '/' && c != '?' && c != '#'))
  if path = [] ∧ special = true then "/".toList else path

/-- The `pathname` of `new URL(url)`, or the error it throws, for a url given
without a base: a string with no scheme is not a URL; a `file:` url has an
optional authority; any other special scheme has a host, which may not be
empty, after any number of slashes; any other scheme has either an authority
after `//` or a path taken as it stands. The url is taken to be in the form the
parser leaves unchanged: no backslash, no `.` or `..` segment, and none of the
characters the parser percent-encodes or strips. -/
def urlPathname (url : Str) : Except Str Str :=
  match splitScheme url with
  | none => .error "Invalid URL".toList
  | some (scheme, rest) =>
    if scheme = "file".toList then
      if startsWith rest "//".toList then .ok (pathAfterAuthority true (rest.drop 2))
      else if startsWith rest "/".toList then .ok (beforeQuery rest)
      else .ok ('/' :: beforeQuery rest)
    else if isSpecialScheme scheme then
      if beforeQuery ((rest.dropWhile (fun c => c == '/')).takeWhile (fun c => c != '/')) = []
      then .error "Invalid URL".toList
      else .ok (pathAfterAuthority true (rest.dropWhile (fun c => c == '/')))
    else if startsWith rest "//".toList then .ok (pathAfterAuthority false (rest.drop 2))
    else .ok (beforeQuery rest)

/-- The built-ins of the concrete browser. -/
def browser : Builtins :=
  { urlPathname := urlPathname, decodeURIComponent := decodeURIComponent }

/-- A concrete set of collaborators over a world that counts the calls made:
`fetch` of a path containing `denied` rejects, of one containing `missing`
answers 404, any other answers 200 with a blob; a download whose url contains
`blocked` is refused; there is one active tab, whose content script declines
the files whose name contains `locked`; notifications are on. -/
def chrome : Chrome Nat :=
  { fetch := fun url w =>
      (if includes url "denied".toList then .error "Failed to fetch".toList
       else if includes url "missing".toList then
         .ok { ok := false, status := 404, blob := .error "no body".toList }
       else .ok { ok := true, status := 200, blob := .ok w }, w + 1)
    createObjectURL := fun blob w => (.ok ("blob:".toList ++ (Nat.repr blob).toList), w + 1)
    download := fun opts w =>
      (if includes opts.url "blocked".toList then .error "Download blocked".toList
       else .ok w, w + 1)
    tabsQuery := fun w => (.ok [{ id := 7 }], w + 1)
    sendMessage := fun _ msg w =>
      (.response (some { success := !includes msg.filename "locked".toList, error := none }),
       w + 1)
    showNotifications := fun w => (none, w + 1) }

/-- A set of collaborators like `chrome` but with no active tab. -/
def chromeNoTab : Chrome Nat :=
  { chrome with tabsQuery := fun w => (.ok [], w + 1) }

/-- The system before any call. -/
def start : Sys Nat := { world := 0, trace := [], pending := [] }

/-- A network reference the collaborators accept. -/
def remoteReport : PdfRef :=
  { url := "https://example.com/docs/report.pdf".toList, filename := "report.pdf".toList,
    linkText := "Report".toList, size := none }

/-- A network reference whose transfer the collaborators refuse. -/
def remoteBlocked : PdfRef :=
  { url := "https://example.com/blocked/plan.pdf".toList, filename := "plan.pdf".toList,
    linkText := "Plan".toList, size := none }

/-- A local reference whose in-process fetch is rejected. -/
def localDenied : PdfRef :=
  { url := "file:///home/u/denied/notes.pdf".toList, filename := "notes.pdf".toList,
    linkText := "Notes".toList, size := none }

/-- A batch of three references, the second of which fails. -/
def batch : List PdfRef := [remoteReport, remoteBlocked, localDenied]

/-- A local reference whose in-process fetch `chrome` answers with status 200. -/
def localNotes : PdfRef :=
  { url := "file:///home/u/docs/notes.pdf".toList, filename := "notes.pdf".toList,
    linkText := "Notes".toList, size := none }

/-- A set of collaborators like `chrome` but whose transfer refuses every
request. -/
def chromeRefuses : Chrome Nat :=
  { chrome with download := fun _ w => (.error "Download blocked".toList, w + 1) }

/-- A set of collaborators like `chrome` but in which `URL.createObjectURL`
throws, as in a service worker, where it is not defined. -/
def chromeNoObjectURL : Chrome Nat :=
  { chrome with
    createObjectURL := fun _ w =>
      (.error "URL.createObjectURL is not a function".toList, w + 1) }

/-- A set of collaborators like `chrome` but whose `fetch` answers with status
200 and a body that cannot be read: `response.blob()` rejects. -/
def chromeBodyFails : Chrome Nat :=
  { chrome with
    fetch := fun _ w =>
      (.ok { ok := true, status := 200, blob := .error "Failed to read body".toList }, w + 1) }

/-- A page with one link, whose file name `100%.pdf` is not a valid
percent-encoding. -/
def undecodableDoc : Document :=
  { protocol := "https:".toList,
    anchors := [{ hrefAttr := some "https://example.com/100%.pdf".toList,
                  href := "https://example.com/100%.pdf".toList,
                  textContent := "Report".toList }],
    embeds := [] }

/-- A page with one link to a directory url, the file being named in the
query; the parameter is its visible text. -/
def queryDoc (text : Str) : Document :=
  { protocol := "https:".toList,
    anchors := [{ hrefAttr := some "/files/?name=report.pdf".toList,
                  href := "https://example.com/files/?name=report.pdf".toList,
                  textContent := text }],
    embeds := [] }

/-- A page with one link to a file whose encoded name starts with a space and
a dot. -/
def hiddenDoc : Document :=
  { protocol := "https:".toList,
    anchors := [{ hrefAttr := some "/docs/%20.hidden.pdf".toList,
                  href := "https://example.com/docs/%20.hidden.pdf".toList,
                  textContent := "Hidden".toList }],
    embeds := [] }

/-! ## Predicates used in the statements -/

/-- The last segment of a URL path as `extractFilenameFromURL` computes it:
`pathname.split('/').pop().split('?')[0].split('#')[0]`. -/
def lastSegment (pathname : Str) : Str :=
  splitHead '#' (splitHead '?' (splitLast '/' pathname))

/-- The name `findPDFs` gives a link whose url yields no file name: the
trimmed visible text, or `document.pdf` when that is empty. -/
def textFallback (link : Anchor) : Str :=
  if truthy (trim link.textContent) then trim link.textContent else "document.pdf".toList

section Retrieval

variable {W : Type}

/-- The entry pushed to `results` for `pdf` when its retrieval settles as `r`
(lines 16 and 19 of `background.js`). -/
def outcomeOf (pdf : PdfRef) (r : Except Str DownloadResult) : Outcome :=
  match r with
  | .ok result => { pdf := pdf, success := true, result := some result, error := none }
  | .error message => { pdf := pdf, success := false, result := none, error := some message }

/-- The system after one pass of the loop of `downloadPDFs` on `pdf`: after the
retrieval, and after the failure notification when the retrieval failed. -/
def afterAttempt (c : Chrome W) (pdf : PdfRef) (s : Sys W) : Sys W :=
  match (downloadSinglePDF c pdf s).1 with
  | .ok _ => (downloadSinglePDF c pdf s).2
  | .error _ =>
    notify "Download Failed".toList ("Failed to download: ".toList ++ pdf.filename)
      (downloadSinglePDF c pdf s).2

/-- The argument of the transfer of the blob strategy (lines 91-96 of
`background.js`): the object url, the sanitized filename, no save prompt and
the `uniquify` policy. -/
def blobTransfer (pdf : PdfRef) (blobUrl : Str) : DownloadOptions :=
  { url := blobUrl, filename := sanitizeFilename pdf.filename, saveAs := false,
    conflictAction := "uniquify".toList }

/-- The first collaborator call of `downloadSinglePDF(pdf)`: the fetch of a
`file://` url, the transfer of any other. -/
def firstCall (pdf : PdfRef) : Event :=
  if startsWith pdf.url "file://".toList then .fetch pdf.url
  else .download { url := pdf.url, filename := sanitizeFilename pdf.filename, saveAs := false,
                   conflictAction := "uniquify".toList }

/-- The system when the loop of `downloadPDFs` reaches index `i`: after the
first `i` references have been processed. -/
def stateBefore (c : Chrome W) (pdfs : List PdfRef) (s : Sys W) (i : Nat) : Sys W :=
  (downloadLoop c (pdfs.take i) [] s).2

end Retrieval

/-- The nine reserved characters of the sanitizer. -/
def reservedChars : List Char := ['<', '>', ':', '"', '/', '\\', '|', '?', '*']

/-- Invariant of the scan: the urls pushed so far are pairwise distinct and
each of them is in `seenURLs`. -/
def ScanInv (st : ScanState) : Prop :=
  (st.pdfs.map (fun r => r.url)).Nodup ∧ ∀ r ∈ st.pdfs, r.url ∈ st.seenURLs

/-! # Theorems -/

/-! ## Name sanitizer -/

theorem trim_part_of (s : Str) : trim s <:+: s := by
  unfold trim
  have h1 : ((s.dropWhile isJSWhitespace).reverse.dropWhile isJSWhitespace).reverse
      <+: s.dropWhile isJSWhitespace := by
    rw [← List.reverse_suffix, List.reverse_reverse]
    exact List.dropWhile_suffix _
  exact h1.isInfix.trans (List.dropWhile_suffix _).isInfix

theorem sanitizeFilename_part_of (N : Str) :
    sanitizeFilename N <:+: N.map (fun c => if isReserved c then '_' else c) := by
  unfold sanitizeFilename
  exact (trim_part_of _).trans (List.dropWhile_suffix _).isInfix

theorem isReserved_iff (c : Char) : isReserved c = true ↔ c ∈ reservedChars := by
  simp only [isReserved, reservedChars, Bool.or_eq_true, decide_eq_true_eq, List.mem_cons,
    List.mem_singleton, List.not_mem_nil, or_false, or_assoc]

theorem dropWhile_eq_self {α : Type} (p : α → Bool) (l : List α)
    (h : ∀ a, l.head? = some a → p a = false) : l.dropWhile p = l := by
  cases l with
  | nil => rfl
  | cons a t =>
    have ha : p a = false := h a rfl
    simp [List.dropWhile_cons, ha]

theorem head?_dropWhile_false {α : Type} (p : α → Bool) (l : List α) (a : α)
    (h : (l.dropWhile p).head? = some a) : p a = false := by
  have hnot := List.head?_dropWhile_not p l
  rw [h] at hnot
  exact hnot

theorem head?_of_isPrefix {α : Type} (l₁ l₂ : List α) (a : α) (hp : l₁ <+: l₂)
    (h : l₁.head? = some a) : l₂.head? = some a := by
  obtain ⟨t, rfl⟩ := hp
  cases l₁ with
  | nil => simp at h
  | cons b r => simpa using h

theorem trim_trim (t : Str) : trim (trim t) = trim t := by
  have hv : ∀ a, ((t.dropWhile isJSWhitespace).reverse.dropWhile isJSWhitespace).head? = some a →
      isJSWhitespace a = false := fun a h => head?_dropWhile_false _ _ a h
  have hrev : ∀ a,
      ((t.dropWhile isJSWhitespace).reverse.dropWhile isJSWhitespace).reverse.head? = some a →
      isJSWhitespace a = false := by
    intro a h
    have hpre : ((t.dropWhile isJSWhitespace).reverse.dropWhile isJSWhitespace).reverse
        <+: t.dropWhile isJSWhitespace := by
      rw [← List.reverse_suffix, List.reverse_reverse]
      exact List.dropWhile_suffix _
    exact head?_dropWhile_false _ t a (head?_of_isPrefix _ _ a hpre h)
  unfold trim
  rw [dropWhile_eq_self _ _ hrev, List.reverse_reverse, dropWhile_eq_self _ _ hv]

theorem sanitizeFilename_not_reserved (N : Str) (c : Char) (hc : c ∈ sanitizeFilename N) :
    isReserved c = false := by
  have hsub := (sanitizeFilename_part_of N).subset hc
  rw [List.mem_map] at hsub
  obtain ⟨d, _, hd⟩ := hsub
  by_cases hr : isReserved d = true
  · rw [if_pos hr] at hd
    subst hd
    decide
  · rw [if_neg hr] at hd
    subst hd
    exact Bool.eq_false_iff.2 hr

/-- A second pass of `sanitizeFilename` changes nothing whenever the result of
the first pass does not start with `.`: a leading dot left by the first pass is
the only way for the two passes to differ. -/
theorem sanitizeFilename_idempotent_unless_leading_dot (N : Str)
    (h : (sanitizeFilename N).head? ≠ some '.') :
    sanitizeFilename (sanitizeFilename N) = sanitizeFilename N := by
  have hmap : (sanitizeFilename N).map (fun c => if isReserved c then '_' else c)
      = sanitizeFilename N := by
    conv => rhs; rw [← List.map_id (sanitizeFilename N)]
    apply List.map_congr_left
    intro c hc
    simp [sanitizeFilename_not_reserved N c hc]
  have hdots : (sanitizeFilename N).dropWhile (fun c => c == '.') = sanitizeFilename N := by
    apply dropWhile_eq_self
    intro a ha
    by_cases hdot : a = '.'
    · subst hdot
      exact absurd ha h
    · simpa using hdot
  have htrim : trim (sanitizeFilename N) = sanitizeFilename N := by
    unfold sanitizeFilename
    exact trim_trim _
  calc sanitizeFilename (sanitizeFilename N)
      = trim (((sanitizeFilename N).map (fun c => if isReserved c then '_' else c)).dropWhile
          (fun c => c == '.')) := rfl
    _ = sanitizeFilename N := by rw [hmap, hdots, htrim]

/-- The name `a:b .pdf ` is sanitized to `a_b .pdf`, which has no leading dot, and a
second pass leaves it unchanged. -/
theorem sanitizeFilename_idempotent_unless_leading_dot_witness :
    (sanitizeFilename "a:b .pdf ".toList).head? ≠ some '.' ∧
    sanitizeFilename (sanitizeFilename "a:b .pdf ".toList)
      = sanitizeFilename "a:b .pdf ".toList :=
  ⟨by decide, sanitizeFilename_idempotent_unless_leading_dot "a:b .pdf ".toList (by decide)⟩

/-- C3 (evaluation at the failing input): sanitizing the name of
`https://x/%20.report.pdf`, which is `" .report.pdf"`, gives `".report.pdf"`,
and sanitizing that again gives `"report.pdf"`: the second pass changes the
result, so the function is not idempotent there. -/
theorem sanitizeFilename_twice_differs :
    sanitizeFilename " .report.pdf".toList = ".report.pdf".toList ∧
    sanitizeFilename (sanitizeFilename " .report.pdf".toList) = "report.pdf".toList ∧
    sanitizeFilename (sanitizeFilename " .report.pdf".toList)
      ≠ sanitizeFilename " .report.pdf".toList := by
  decide

theorem trim_decompose (s : Str) :
    s = s.takeWhile isJSWhitespace ++ trim s ++
      ((s.dropWhile isJSWhitespace).reverse.takeWhile isJSWhitespace).reverse := by
  have h1 := List.takeWhile_append_dropWhile isJSWhitespace s
  have h2 := congrArg List.reverse
    (List.takeWhile_append_dropWhile isJSWhitespace (s.dropWhile isJSWhitespace).reverse)
  rw [List.reverse_append, List.reverse_reverse] at h2
  unfold trim
  rw [List.append_assoc, h2, h1]

theorem map_reserved_eq :
    (fun c => if c ∈ reservedChars then '_' else c)
      = (fun c => if isReserved c then '_' else c) := by
  funext c
  by_cases hr : isReserved c = true
  · rw [if_pos hr, if_pos ((isReserved_iff c).1 hr)]
  · rw [if_neg hr, if_neg (fun h => hr ((isReserved_iff c).2 h))]

theorem sanitizeFilename_decompose (N : Str) :
    N.map (fun c => if isReserved c then '_' else c) =
      (N.map (fun c => if isReserved c then '_' else c)).takeWhile (fun c => c == '.') ++
      ((N.map (fun c => if isReserved c then '_' else c)).dropWhile
        (fun c => c == '.')).takeWhile isJSWhitespace ++
      sanitizeFilename N ++
      ((((N.map (fun c => if isReserved c then '_' else c)).dropWhile
        (fun c => c == '.')).dropWhile isJSWhitespace).reverse.takeWhile
          isJSWhitespace).reverse := by
  have h1 := List.takeWhile_append_dropWhile (fun c => c == '.')
    (N.map (fun c => if isReserved c then '_' else c))
  have h2 := trim_decompose
    ((N.map (fun c => if isReserved c then '_' else c)).dropWhile (fun c => c == '.'))
  unfold sanitizeFilename
  rw [List.append_assoc, List.append_assoc, ← List.append_assoc (List.takeWhile isJSWhitespace _),
    ← h2, h1]

theorem count_underscore_map (N : Str) :
    (N.map (fun c => if isReserved c then '_' else c)).count '_'
      = N.count '_' + N.countP isReserved := by
  induction N with
  | nil => rfl
  | cons c rest ih =>
    rw [List.map_cons, List.count_cons, List.count_cons, List.countP_cons, ih]
    by_cases hr : isReserved c = true
    · have hne : c ≠ '_' := by
        intro h
        subst h
        revert hr
        decide
      simp [hr, hne]
      omega
    · by_cases hc : c = '_'
      · subst hc
        simp [hr]
        omega
      · simp [hr, hc]

/-- C4: for every string `N`, none of the nine reserved characters
`< > : " / \ | ? *` occurs in `sanitizeFilename N`, and each occurrence in `N`
has been replaced by `_`: `N` with its reserved characters replaced is some
dots, some white space, `sanitizeFilename N`, and some white space; a reserved
character at index `i` of `N` is a `_` of the result, at index `i` less the
number of characters removed in front; and the result has one `_` for each `_`
and each reserved character of `N`. -/
theorem sanitizeFilename_no_reserved (N : Str) :
    (∀ c ∈ reservedChars, c ∉ sanitizeFilename N) ∧
    sanitizeFilename N <:+: N.map (fun c => if c ∈ reservedChars then '_' else c) ∧
    (∃ dots lead trail,
      N.map (fun c => if c ∈ reservedChars then '_' else c)
        = dots ++ lead ++ sanitizeFilename N ++ trail ∧
      (∀ c ∈ dots, c = '.') ∧ (∀ c ∈ lead, isJSWhitespace c = true) ∧
      (∀ c ∈ trail, isJSWhitespace c = true) ∧
      ∀ (i : Nat) (c : Char), N[i]? = some c → c ∈ reservedChars →
        dots.length + lead.length ≤ i ∧
        (sanitizeFilename N)[i - (dots.length + lead.length)]? = some '_') ∧
    (sanitizeFilename N).count '_'
      = N.count '_' + N.countP (fun c => decide (c ∈ reservedChars)) := by
  have hdec := sanitizeFilename_decompose N
  have hdots : ∀ c ∈ (N.map (fun c => if isReserved c then '_' else c)).takeWhile
      (fun c => c == '.'), c = '.' := by
    intro c hc
    simpa using List.mem_takeWhile_imp hc
  have hlead : ∀ c ∈ ((N.map (fun c => if isReserved c then '_' else c)).dropWhile
      (fun c => c == '.')).takeWhile isJSWhitespace, isJSWhitespace c = true :=
    fun c hc => List.mem_takeWhile_imp hc
  have htrail : ∀ c ∈ ((((N.map (fun c => if isReserved c then '_' else c)).dropWhile
      (fun c => c == '.')).dropWhile isJSWhitespace).reverse.takeWhile
        isJSWhitespace).reverse, isJSWhitespace c = true :=
    fun c hc => List.mem_takeWhile_imp (List.mem_reverse.1 hc)
  generalize (N.map (fun c => if isReserved c then '_' else c)).takeWhile
    (fun c => c == '.') = dots at hdec hdots
  generalize ((N.map (fun c => if isReserved c then '_' else c)).dropWhile
    (fun c => c == '.')).takeWhile isJSWhitespace = lead at hdec hlead
  generalize ((((N.map (fun c => if isReserved c then '_' else c)).dropWhile
    (fun c => c == '.')).dropWhile isJSWhitespace).reverse.takeWhile
      isJSWhitespace).reverse = trail at hdec htrail
  have hnd : '_' ∉ dots := fun h => absurd (hdots _ h) (by decide)
  have hnl : '_' ∉ lead := fun h => absurd (hlead _ h) (by decide)
  have hnt : '_' ∉ trail := fun h => absurd (htrail _ h) (by decide)
  refine ⟨?_, ?_, ⟨dots, lead, trail, ?_, hdots, hlead, htrail, ?_⟩, ?_⟩
  · intro c hc hmem
    have hres := (isReserved_iff c).2 hc
    rw [sanitizeFilename_not_reserved N c hmem] at hres
    cases hres
  · rw [map_reserved_eq]
    exact sanitizeFilename_part_of N
  · rw [map_reserved_eq]
    exact hdec
  · intro i c hi hc
    have hmap : (N.map (fun c => if isReserved c then '_' else c))[i]? = some '_' := by
      rw [List.getElem?_map, hi]
      simp [(isReserved_iff c).2 hc]
    rw [hdec, List.append_assoc, List.append_assoc, ← List.append_assoc dots lead] at hmap
    by_cases hlt : i < (dots ++ lead).length
    · rw [List.getElem?_append_left hlt] at hmap
      have hmem := List.getElem?_mem hmap
      rw [List.mem_append] at hmem
      rcases hmem with h | h
      · exact absurd h hnd
      · exact absurd h hnl
    · have hge : (dots ++ lead).length ≤ i := Nat.le_of_not_lt hlt
      rw [List.getElem?_append_right hge] at hmap
      rw [List.length_append] at hge hmap
      refine ⟨hge, ?_⟩
      by_cases hlt2 : i - (dots.length + lead.length) < (sanitizeFilename N).length
      · rw [List.getElem?_append_left hlt2] at hmap
        exact hmap
      · rw [List.getElem?_append_right (Nat.le_of_not_lt hlt2)] at hmap
        exact absurd (List.getElem?_mem hmap) hnt
  · have hcount := count_underscore_map N
    rw [hdec] at hcount
    simp only [List.count_append, List.count_eq_zero_of_not_mem hnd,
      List.count_eq_zero_of_not_mem hnl, List.count_eq_zero_of_not_mem hnt] at hcount
    have hp : N.countP (fun c => decide (c ∈ reservedChars)) = N.countP isReserved := by
      apply List.countP_congr
      intro c _
      simp [isReserved_iff]
    rw [hp]
    omega

/-- C4 (witness): `/` is reserved, is the character at index 1 of `a/b:c.pdf`,
does not occur in the sanitized name, and is a `_` there. -/
theorem sanitizeFilename_no_reserved_witness :
    '/' ∈ reservedChars ∧ "a/b:c.pdf".toList[1]? = some '/' ∧
    '/' ∉ sanitizeFilename "a/b:c.pdf".toList ∧
    ∃ k, k ≤ 1 ∧ (sanitizeFilename "a/b:c.pdf".toList)[1 - k]? = some '_' := by
  refine ⟨by decide, rfl, (sanitizeFilename_no_reserved "a/b:c.pdf".toList).1 '/' (by decide), ?_⟩
  obtain ⟨dots, lead, trail, _, _, _, _, hpos⟩ :=
    (sanitizeFilename_no_reserved "a/b:c.pdf".toList).2.2.1
  exact ⟨dots.length + lead.length, hpos 1 '/' rfl (by decide)⟩

/-- C5 (evaluation at the failing input): the name `" .hidden.pdf"` (a space,
then a dot) is sanitized to `".hidden.pdf"`, which starts with `.`: the dots
are stripped before the white space is trimmed. `findPDFs` gives that name to
the link `https://example.com/docs/%20.hidden.pdf`. -/
theorem sanitizeFilename_leading_dot :
    sanitizeFilename " .hidden.pdf".toList = ".hidden.pdf".toList ∧
    (sanitizeFilename " .hidden.pdf".toList).head? = some '.' ∧
    findPDFs browser hiddenDoc =
      [{ url := "https://example.com/docs/%20.hidden.pdf".toList,
         filename := ".hidden.pdf".toList, linkText := "Hidden".toList, size := none }] := by
  decide

/-! ## Reference extractor: distinct urls -/

theorem scanInv_push (st : ScanState) (r : PdfRef) (hinv : ScanInv st)
    (hnew : r.url ∉ st.seenURLs) :
    ScanInv { pdfs := st.pdfs ++ [r], seenURLs := st.seenURLs ++ [r.url] } := by
  obtain ⟨hnd, hseen⟩ := hinv
  refine ⟨?_, ?_⟩
  · simp only [List.map_append, List.map_cons, List.map_nil]
    rw [List.nodup_append]
    refine ⟨hnd, List.nodup_singleton _, ?_⟩
    intro u hu hu2
    rw [List.mem_singleton] at hu2
    subst hu2
    rw [List.mem_map] at hu
    obtain ⟨r2, hr2, hurl⟩ := hu
    exact hnew (hurl ▸ hseen r2 hr2)
  · intro r2 hr2
    simp only [List.mem_append, List.mem_singleton] at hr2 ⊢
    rcases hr2 with h | h
    · exact Or.inl (hseen r2 h)
    · exact Or.inr (by rw [h])

theorem scanLink_inv (b : Builtins) (st : ScanState) (link : Anchor) (hinv : ScanInv st) :
    ScanInv (scanLink b st link) := by
  unfold scanLink
  simp only
  split
  · exact hinv
  · rename_i hcond
    simp only [Bool.or_eq_true, decide_eq_true_eq, not_or] at hcond
    split
    · exact hinv
    · exact scanInv_push st _ hinv hcond.2

theorem scanEmbed_inv (b : Builtins) (st : ScanState) (embed : Embed) (hinv : ScanInv st) :
    ScanInv (scanEmbed b st embed) := by
  unfold scanEmbed
  simp only
  split
  · exact hinv
  · split
    · exact hinv
    · rename_i hcond
      simp only [Bool.or_eq_true, decide_eq_true_eq, not_or] at hcond
      split
      · exact hinv
      · exact scanInv_push st _ hinv hcond.2

theorem scanFileLink_inv (b : Builtins) (st : ScanState) (link : Anchor) (hinv : ScanInv st) :
    ScanInv (scanFileLink b st link) := by
  unfold scanFileLink
  split
  · exact hinv
  · split
    · simp only
      split
      · exact hinv
      · rename_i hcond
        simp only [decide_eq_true_eq] at hcond
        split
        · exact hinv
        · exact scanInv_push st _ hinv hcond
    · exact hinv

theorem foldl_scanInv {α : Type} (f : ScanState → α → ScanState)
    (hf : ∀ st x, ScanInv st → ScanInv (f st x)) (xs : List α) (st : ScanState)
    (hinv : ScanInv st) : ScanInv (xs.foldl f st) := by
  induction xs generalizing st with
  | nil => exact hinv
  | cons x xs ih => exact ih _ (hf st x hinv)

theorem scanLinksAndEmbeds_inv (b : Builtins) (doc : Document) :
    ScanInv (scanLinksAndEmbeds b doc) := by
  unfold scanLinksAndEmbeds
  refine foldl_scanInv _ (scanEmbed_inv b) _ _ ?_
  refine foldl_scanInv _ (scanLink_inv b) _ _ ?_
  exact ⟨List.nodup_nil, fun r hr => absurd hr (List.not_mem_nil r)⟩

/-- C1: for every document (any anchors, any iframe/embed/object elements, any
page location) and whatever the URL parser and the percent-decoder answer, no
two entries of the list returned by `findPDFs` have the same `url`. -/
theorem findPDFs_urls_distinct (b : Builtins) (doc : Document) :
    (findPDFs b doc).Pairwise (fun r₁ r₂ => r₁.url ≠ r₂.url) := by
  have hinv : ScanInv (if doc.protocol = "file:".toList ∧ (scanLinksAndEmbeds b doc).pdfs.length = 0
      then (doc.anchors.filter (fun a => a.hrefAttr.isSome)).foldl (scanFileLink b)
        (scanLinksAndEmbeds b doc)
      else scanLinksAndEmbeds b doc) := by
    split
    · exact foldl_scanInv _ (scanFileLink_inv b) _ _ (scanLinksAndEmbeds_inv b doc)
    · exact scanLinksAndEmbeds_inv b doc
  have hnd := hinv.1
  rw [List.Nodup, List.pairwise_map] at hnd
  exact hnd

/-! ## Reference extractor: file names -/

theorem scanLink_extends (b : Builtins) (st : ScanState) (link : Anchor) :
    st.pdfs <+: (scanLink b st link).pdfs := by
  unfold scanLink
  simp only
  split
  · exact List.prefix_refl _
  · split
    · exact List.prefix_refl _
    · exact List.prefix_append _ _

theorem scanEmbed_extends (b : Builtins) (st : ScanState) (embed : Embed) :
    st.pdfs <+: (scanEmbed b st embed).pdfs := by
  unfold scanEmbed
  simp only
  split
  · exact List.prefix_refl _
  · split
    · exact List.prefix_refl _
    · split
      · exact List.prefix_refl _
      · exact List.prefix_append _ _

theorem scanFileLink_extends (b : Builtins) (st : ScanState) (link : Anchor) :
    st.pdfs <+: (scanFileLink b st link).pdfs := by
  unfold scanFileLink
  split
  · exact List.prefix_refl _
  · split
    · simp only
      split
      · exact List.prefix_refl _
      · split
        · exact List.prefix_refl _
        · exact List.prefix_append _ _
    · exact List.prefix_refl _

theorem foldl_extends {α : Type} (f : ScanState → α → ScanState)
    (hf : ∀ st x, st.pdfs <+: (f st x).pdfs) (xs : List α) (st : ScanState) :
    st.pdfs <+: (xs.foldl f st).pdfs := by
  induction xs generalizing st with
  | nil => exact List.prefix_refl _
  | cons x xs ih => exact (hf st x).trans (ih _)

theorem extractFilenameFromURL_none (b : Builtins) (url pathname : Str)
    (hpath : b.urlPathname url = .ok pathname)
    (hseg : lastSegment pathname = [] ∨
      ((∃ e, b.decodeURIComponent (lastSegment pathname) = .error e) ∧
        matchPdfSegment url = none)) :
    extractFilenameFromURL b url = .ok none := by
  unfold extractFilenameFromURL
  unfold lastSegment at hseg
  simp only [hpath]
  by_cases hempty : splitHead '#' (splitHead '?' (splitLast '/' pathname)) = []
  · simp only [hempty, if_true]
  · rcases hseg with h | ⟨⟨e, he⟩, hmatch⟩
    · exact absurd h hempty
    · simp only [hempty, if_false, he, hmatch]

theorem scanLink_text_fallback (b : Builtins) (st : ScanState) (link : Anchor)
    (hurl : link.href ≠ []) (hnew : link.href ∉ st.seenURLs)
    (hnone : extractFilenameFromURL b link.href = .ok none) :
    (scanLink b st link).pdfs = st.pdfs ++
      [{ url := link.href, filename := sanitizeFilename (textFallback link),
         linkText := trim link.textContent, size := none }] := by
  have htruthy : truthy link.href = true := by
    unfold truthy
    cases hh : link.href with
    | nil => exact absurd hh hurl
    | cons c rest => rfl
  unfold scanLink textFallback
  simp only [htruthy, hnew, hnone, truthyOpt, Bool.not_true, Bool.false_or, decide_False,
    Bool.false_eq_true, if_false]

/-- Where the text fallback of `findPDFs` is reached: an anchor candidate with
a non-empty url not yet seen whose URL-path last segment is empty, or cannot be
percent-decoded while the url has no match of the pattern of the `catch` block,
gets a reference in the list returned by `findPDFs`, and its filename is
`sanitizeFilename` of the link's trimmed visible text when that text is
non-empty, of `document.pdf` otherwise. -/
theorem findPDFs_anchor_text_fallback (b : Builtins) (doc : Document)
    (pre post : List Anchor) (link : Anchor) (pathname : Str)
    (hcand : doc.anchors.filter matchesPdfLink = pre ++ link :: post)
    (hurl : link.href ≠ [])
    (hnew : link.href ∉ (pre.foldl (scanLink b) { pdfs := [], seenURLs := [] }).seenURLs)
    (hpath : b.urlPathname link.href = .ok pathname)
    (hseg : lastSegment pathname = [] ∨
      ((∃ e, b.decodeURIComponent (lastSegment pathname) = .error e) ∧
        matchPdfSegment link.href = none)) :
    ({ url := link.href,
       filename := sanitizeFilename
         (if trim link.textContent ≠ [] then trim link.textContent else "document.pdf".toList),
       linkText := trim link.textContent, size := none } : PdfRef) ∈ findPDFs b doc := by
  have hname : (if trim link.textContent ≠ [] then trim link.textContent
      else "document.pdf".toList) = textFallback link := by
    unfold textFallback truthy
    cases trim link.textContent <;> rfl
  rw [hname]
  have hnone := extractFilenameFromURL_none b link.href pathname hpath hseg
  have hstep := scanLink_text_fallback b _ link hurl hnew hnone
  have hmem1 : PdfRef.mk link.href (sanitizeFilename (textFallback link))
      (trim link.textContent) none
      ∈ ((pre ++ link :: post).foldl (scanLink b) (ScanState.mk [] [])).pdfs := by
    rw [List.foldl_append, List.foldl_cons]
    apply (foldl_extends _ (scanLink_extends b) post _).subset
    rw [hstep]
    exact List.mem_append_right _ (List.mem_singleton_self _)
  have hmem2 : PdfRef.mk link.href (sanitizeFilename (textFallback link))
      (trim link.textContent) none ∈ (scanLinksAndEmbeds b doc).pdfs := by
    unfold scanLinksAndEmbeds
    simp only [hcand]
    exact (foldl_extends _ (scanEmbed_extends b) _ _).subset hmem1
  unfold findPDFs
  simp only
  split
  · exact (foldl_extends _ (scanFileLink_extends b) _ _).subset hmem2
  · exact hmem2

/-- The link `https://example.com/files/?name=report.pdf` has an empty last
path segment, and its reference is named by its trimmed text `Annual report`. -/
theorem findPDFs_anchor_text_fallback_witness :
    lastSegment "/files/".toList = [] ∧
    ({ url := "https://example.com/files/?name=report.pdf".toList,
       filename := "Annual report".toList, linkText := "Annual report".toList,
       size := none } : PdfRef) ∈ findPDFs browser (queryDoc "  Annual report ".toList) :=
  ⟨rfl, findPDFs_anchor_text_fallback browser (queryDoc "  Annual report ".toList) [] []
    { hrefAttr := some "/files/?name=report.pdf".toList,
      href := "https://example.com/files/?name=report.pdf".toList,
      textContent := "  Annual report ".toList }
    "/files/".toList rfl (by decide) (by decide) rfl (Or.inl rfl)⟩

/-- C9 (evaluation at the failing input): the link
`https://example.com/100%.pdf` is an anchor candidate with a url not yet seen
whose last path segment `100%.pdf` cannot be percent-decoded, and `findPDFs`
returns no reference at all: the `catch` block of `extractFilenameFromURL`
matches `100%.pdf` in the url and decodes it again, unguarded, which throws
into the `catch` of `findPDFs`, where the link is dropped instead of being
named by its text `Report`. -/
theorem findPDFs_skips_undecodable :
    undecodableDoc.anchors.filter matchesPdfLink = undecodableDoc.anchors ∧
    browser.urlPathname "https://example.com/100%.pdf".toList = .ok "/100%.pdf".toList ∧
    lastSegment "/100%.pdf".toList = "100%.pdf".toList ∧
    browser.decodeURIComponent "100%.pdf".toList = .error "URI malformed".toList ∧
    findPDFs browser undecodableDoc = [] :=
  ⟨rfl, rfl, rfl, rfl, rfl⟩

/-- C10 (evaluation at the failing input): for a page whose only link is
`https://example.com/files/?name=report.pdf` with the visible text `...`, the
last path segment is empty, the name falls back to the text, and sanitizing
`...` strips every character: `findPDFs` returns one reference, with an empty
filename. -/
theorem findPDFs_empty_filename :
    findPDFs browser (queryDoc "...".toList) =
      [{ url := "https://example.com/files/?name=report.pdf".toList, filename := [],
         linkText := "...".toList, size := none }] := by
  decide

/-! ## Retrieval: strategy selection and fallback -/

section RetrievalTheorems

variable {W : Type}

theorem not_file_of_http (url : Str)
    (h : startsWith url "http://".toList = true ∨ startsWith url "https://".toList = true) :
    startsWith url "file://".toList = false := by
  cases url with
  | nil => rfl
  | cons c rest =>
    have hc : c = 'h' := by
      rcases h with h | h <;>
      · simp only [startsWith, String.toList, List.isPrefixOf, Bool.and_eq_true, beq_iff_eq] at h
        exact h.1.symm
    subst hc
    rfl

theorem handleLocalFileDownloadTry_of_fetch_fails (c : Chrome W) (pdf : PdfRef) (s : Sys W)
    (hfail : (∃ e, (c.fetch pdf.url s.world).1 = .error e) ∨
      (∃ resp, (c.fetch pdf.url s.world).1 = .ok resp ∧ resp.ok = false)) :
    (∃ e, (handleLocalFileDownloadTry c pdf s).1 = .error e) ∧
    (handleLocalFileDownloadTry c pdf s).2 = (callFetch c pdf.url s).2 := by
  unfold handleLocalFileDownloadTry
  rcases hfail with ⟨e, he⟩ | ⟨resp, hresp, hok⟩
  · simp only [callFetch, he]
    exact ⟨⟨e, rfl⟩, trivial⟩
  · simp only [callFetch, hresp, hok]
    exact ⟨⟨_, rfl⟩, rfl⟩

theorem handleLocalFileDownload_of_fetch_fails (c : Chrome W) (pdf : PdfRef) (s : Sys W)
    (hfail : (∃ e, (c.fetch pdf.url s.world).1 = .error e) ∨
      (∃ resp, (c.fetch pdf.url s.world).1 = .ok resp ∧ resp.ok = false)) :
    handleLocalFileDownload c pdf s = useContentScriptDownload c pdf (callFetch c pdf.url s).2 := by
  obtain ⟨⟨e, he⟩, hs⟩ := handleLocalFileDownloadTry_of_fetch_fails c pdf s hfail
  unfold handleLocalFileDownload
  simp only [he, hs]

theorem useContentScriptDownload_trace (c : Chrome W) (pdf : PdfRef) (s : Sys W) :
    (useContentScriptDownload c pdf s).2.trace = s.trace ++ Event.tabsQuery ::
      (match (c.tabsQuery s.world).1 with
       | .ok (tab :: _) => [Event.sendMessage tab.id (fallbackMessage pdf)]
       | _ => []) := by
  unfold useContentScriptDownload
  simp only [callTabsQuery]
  split
  · rename_i e he
    simp only [he, record]
  · rename_i he
    simp only [he, record]
  · rename_i tab tabs he
    simp only [he, callSendMessage, record]
    split
    · simp
    · simp
    · split <;> simp

theorem useContentScriptDownload_ok_iff (c : Chrome W) (pdf : PdfRef) (s : Sys W)
    (r : DownloadResult) :
    (useContentScriptDownload c pdf s).1 = .ok r ↔
      (r = { downloadId := none, filename := pdf.filename,
             method := some "content-script".toList } ∧
       ∃ tab tabs ack, (c.tabsQuery s.world).1 = .ok (tab :: tabs) ∧
        (c.sendMessage tab.id (fallbackMessage pdf) (c.tabsQuery s.world).2).1
          = .response (some ack) ∧ ack.success = true) := by
  unfold useContentScriptDownload
  simp only [callTabsQuery]
  split
  · rename_i e he
    constructor
    · intro h
      cases h
    · rintro ⟨_, tab, tabs, ack, h1, _⟩
      rw [he] at h1
      cases h1
  · rename_i he
    constructor
    · intro h
      cases h
    · rintro ⟨_, tab, tabs, ack, h1, _⟩
      rw [he] at h1
      cases h1
  · rename_i tab tabs he
    simp only [callSendMessage, record]
    split
    · rename_i m hm
      constructor
      · intro h
        cases h
      · rintro ⟨_, tab2, tabs2, ack, h1, h2, _⟩
        rw [he] at h1
        cases h1
        rw [hm] at h2
        cases h2
    · rename_i hm
      constructor
      · intro h
        cases h
      · rintro ⟨_, tab2, tabs2, ack, h1, h2, _⟩
        rw [he] at h1
        cases h1
        rw [hm] at h2
        cases h2
    · rename_i ack hm
      by_cases hs : ack.success = true
      · simp only [hs, Bool.not_true, Bool.false_eq_true, if_false]
        constructor
        · intro h
          cases h
          exact ⟨rfl, tab, tabs, ack, he, hm, hs⟩
        · rintro ⟨hr, _⟩
          rw [hr]
      · simp only [hs, Bool.not_false, if_true]
        constructor
        · intro h
          cases h
        · rintro ⟨_, tab2, tabs2, ack2, h1, h2, h3⟩
          rw [he] at h1
          cases h1
          rw [hm] at h2
          cases h2
          exact absurd h3 hs

/-- C6: for a reference whose url starts with `file://` and whose in-process
fetch fails (it rejects, or answers with a status that is not ok),
`handleLocalFileDownload`, and `downloadSinglePDF` through it, is the fallback
`useContentScriptDownload` run once after the fetch and returns its result: the
calls made are the fetch, one `tabs.query`, and one `tabs.sendMessage` when a
tab is active; the result is a success, with method `content-script`, exactly
when an active tab exists and its acknowledgement has `success = true`. -/
theorem handleLocalFileDownload_fallback (c : Chrome W) (pdf : PdfRef) (s : Sys W)
    (hfile : startsWith pdf.url "file://".toList = true)
    (hfail : (∃ e, (c.fetch pdf.url s.world).1 = .error e) ∨
      (∃ resp, (c.fetch pdf.url s.world).1 = .ok resp ∧ resp.ok = false)) :
    handleLocalFileDownload c pdf s
      = useContentScriptDownload c pdf (callFetch c pdf.url s).2 ∧
    downloadSinglePDF c pdf s = handleLocalFileDownload c pdf s ∧
    (handleLocalFileDownload c pdf s).2.trace =
      s.trace ++ Event.fetch pdf.url :: Event.tabsQuery ::
        (match (c.tabsQuery (c.fetch pdf.url s.world).2).1 with
         | .ok (tab :: _) => [Event.sendMessage tab.id (fallbackMessage pdf)]
         | _ => []) ∧
    ∀ r, (handleLocalFileDownload c pdf s).1 = .ok r ↔
      (r = { downloadId := none, filename := pdf.filename,
             method := some "content-script".toList } ∧
       ∃ tab tabs ack,
        (c.tabsQuery (c.fetch pdf.url s.world).2).1 = .ok (tab :: tabs) ∧
        (c.sendMessage tab.id (fallbackMessage pdf)
            (c.tabsQuery (c.fetch pdf.url s.world).2).2).1 = .response (some ack) ∧
        ack.success = true) := by
  have heq := handleLocalFileDownload_of_fetch_fails c pdf s hfail
  refine ⟨heq, ?_, ?_, ?_⟩
  · unfold downloadSinglePDF
    simp only [hfile, if_true]
  · rw [heq, useContentScriptDownload_trace]
    simp only [callFetch, record, List.append_assoc, List.singleton_append]
  · intro r
    rw [heq]
    exact useContentScriptDownload_ok_iff c pdf _ r

/-- C6 (witness): the fetch of `localDenied` is rejected, and the calls made are
the fetch, `tabs.query` and one `tabs.sendMessage` to tab 7. -/
theorem handleLocalFileDownload_fallback_witness :
    startsWith localDenied.url "file://".toList = true ∧
    (chrome.fetch localDenied.url start.world).1 = .error "Failed to fetch".toList ∧
    (handleLocalFileDownload chrome localDenied start).2.trace =
      [Event.fetch localDenied.url, Event.tabsQuery,
       Event.sendMessage 7 (fallbackMessage localDenied)] :=
  ⟨rfl, rfl,
   (handleLocalFileDownload_fallback chrome localDenied start rfl (Or.inl ⟨_, rfl⟩)).2.2.1⟩

/-- C7: for a reference whose url starts with `http://` or `https://`,
`downloadSinglePDF` makes exactly one collaborator call, the transfer
`chrome.downloads.download` with the reference's url, the sanitized filename,
`saveAs = false` and `conflictAction = 'uniquify'`: no fetch, no `tabs.query`
and no `tabs.sendMessage` (the page-context fallback) is made. -/
theorem downloadSinglePDF_network (c : Chrome W) (pdf : PdfRef) (s : Sys W)
    (h : startsWith pdf.url "http://".toList = true ∨
      startsWith pdf.url "https://".toList = true) :
    (downloadSinglePDF c pdf s).2.trace =
      s.trace ++ [Event.download { url := pdf.url, filename := sanitizeFilename pdf.filename,
                                   saveAs := false, conflictAction := "uniquify".toList }] := by
  unfold downloadSinglePDF
  simp only [not_file_of_http pdf.url h]
  simp only [Bool.false_eq_true, if_false]
  split <;> rfl

/-- C7 (witness): for `remoteReport`, an `https://` url, the only call is the
transfer with the file name `report.pdf`. -/
theorem downloadSinglePDF_network_witness :
    startsWith remoteReport.url "https://".toList = true ∧
    (downloadSinglePDF chrome remoteReport start).2.trace =
      [Event.download { url := remoteReport.url, filename := "report.pdf".toList,
                        saveAs := false, conflictAction := "uniquify".toList }] :=
  ⟨rfl, downloadSinglePDF_network chrome remoteReport start (Or.inr rfl)⟩

/-! ## Retrieval: the batch -/

theorem downloadLoop_cons (c : Chrome W) (pdf : PdfRef) (rest : List PdfRef)
    (acc : List Outcome) (s : Sys W) :
    downloadLoop c (pdf :: rest) acc s =
      downloadLoop c rest (acc ++ [outcomeOf pdf (downloadSinglePDF c pdf s).1])
        (afterAttempt c pdf s) := by
  rw [downloadLoop]
  unfold outcomeOf afterAttempt
  split <;> rename_i h <;> simp only [h]

theorem downloadLoop_acc (c : Chrome W) (pdfs : List PdfRef) (acc : List Outcome) (s : Sys W) :
    downloadLoop c pdfs acc s =
      (acc ++ (downloadLoop c pdfs [] s).1, (downloadLoop c pdfs [] s).2) := by
  induction pdfs generalizing acc s with
  | nil => simp [downloadLoop]
  | cons pdf rest ih =>
    rw [downloadLoop_cons, downloadLoop_cons, ih, ih ([] ++ _)]
    simp

theorem downloadLoop_append (c : Chrome W) (l₁ l₂ : List PdfRef) (acc : List Outcome)
    (s : Sys W) :
    downloadLoop c (l₁ ++ l₂) acc s =
      downloadLoop c l₂ (downloadLoop c l₁ acc s).1 (downloadLoop c l₁ acc s).2 := by
  induction l₁ generalizing acc s with
  | nil => simp [downloadLoop]
  | cons pdf rest ih =>
    rw [List.cons_append, downloadLoop_cons, downloadLoop_cons, ih]

theorem downloadLoop_map_pdf (c : Chrome W) (pdfs : List PdfRef) (s : Sys W) :
    (downloadLoop c pdfs [] s).1.map (fun r => r.pdf) = pdfs := by
  induction pdfs generalizing s with
  | nil => simp [downloadLoop]
  | cons pdf rest ih =>
    rw [downloadLoop_cons, downloadLoop_acc]
    simp only [List.nil_append, List.map_append, List.map_cons, List.map_nil,
      List.singleton_append, ih]
    congr 1
    unfold outcomeOf
    split <;> rfl

theorem downloadLoop_getElem? (c : Chrome W) (pdfs : List PdfRef) (s : Sys W) (i : Nat)
    (pdf : PdfRef) (hi : pdfs[i]? = some pdf) :
    (downloadLoop c pdfs [] s).1[i]? =
      some (outcomeOf pdf (downloadSinglePDF c pdf (stateBefore c pdfs s i)).1) := by
  induction pdfs generalizing s i with
  | nil => simp at hi
  | cons p rest ih =>
    rw [downloadLoop_cons, downloadLoop_acc]
    cases i with
    | zero =>
      simp only [List.getElem?_cons_zero, Option.some.injEq] at hi
      subst hi
      simp [stateBefore, downloadLoop]
    | succ i =>
      simp only [List.getElem?_cons_succ] at hi
      have hst : stateBefore c (p :: rest) s (i + 1) = stateBefore c rest (afterAttempt c p s) i := by
        unfold stateBefore
        rw [List.take_succ_cons, downloadLoop_cons, downloadLoop_acc]
      rw [hst, ← ih (afterAttempt c p s) i hi]
      simp

theorem stateBefore_succ (c : Chrome W) (pdfs : List PdfRef) (s : Sys W) (i : Nat)
    (pdf : PdfRef) (hi : pdfs[i]? = some pdf) :
    stateBefore c pdfs s (i + 1) = afterAttempt c pdf (stateBefore c pdfs s i) := by
  unfold stateBefore
  rw [List.take_succ, hi, downloadLoop_append]
  simp only [Option.toList]
  rw [downloadLoop_cons]
  rfl

/-- C2: whatever the collaborators answer, `downloadPDFs` on a list of `n`
references resolves with a list of exactly `n` outcomes, and at every index the
outcome's reference is the input reference at that index. -/
theorem downloadPDFs_outcomes_in_order (c : Chrome W) (pdfs : List PdfRef) (s : Sys W) :
    ∃ results, (downloadPDFs c pdfs s).1 = .ok results ∧
      results.length = pdfs.length ∧
      ∀ i : Nat, (results[i]?).map Outcome.pdf = pdfs[i]? := by
  refine ⟨(downloadLoop c pdfs [] s).1, rfl, ?_, ?_⟩
  · have h := congrArg List.length (downloadLoop_map_pdf c pdfs s)
    rwa [List.length_map] at h
  · intro i
    have h := congrArg (fun l : List PdfRef => l[i]?) (downloadLoop_map_pdf c pdfs s)
    simp only [List.getElem?_map] at h
    exact h

theorem handleLocalFileDownloadTry_trace (c : Chrome W) (pdf : PdfRef) (s : Sys W) :
    s.trace ++ [Event.fetch pdf.url] <+: (handleLocalFileDownloadTry c pdf s).2.trace := by
  unfold handleLocalFileDownloadTry
  simp only [callFetch, callCreateObjectURL, callDownload, record]
  split
  · exact List.prefix_refl _
  · split
    · exact List.prefix_refl _
    · split
      · exact List.prefix_refl _
      · split
        · exact List.prefix_append _ _
        · split <;>
          exact ((List.prefix_append _ _).trans (List.prefix_append _ _)).trans
            (List.prefix_append _ _)

theorem handleLocalFileDownload_trace (c : Chrome W) (pdf : PdfRef) (s : Sys W) :
    s.trace ++ [Event.fetch pdf.url] <+: (handleLocalFileDownload c pdf s).2.trace := by
  have htry := handleLocalFileDownloadTry_trace c pdf s
  unfold handleLocalFileDownload
  simp only
  split
  · exact htry
  · rw [useContentScriptDownload_trace]
    exact htry.trans (List.prefix_append _ _)

theorem downloadSinglePDF_trace (c : Chrome W) (pdf : PdfRef) (s : Sys W) :
    s.trace ++ [firstCall pdf] <+: (downloadSinglePDF c pdf s).2.trace := by
  unfold downloadSinglePDF firstCall
  simp only
  split
  · exact handleLocalFileDownload_trace c pdf s
  · simp only [callDownload, record]
    split <;> exact List.prefix_refl _

theorem notify_trace (title message : Str) (s : Sys W) :
    s.trace <+: (notify title message s).trace := by
  unfold notify
  exact List.prefix_append _ _

theorem afterAttempt_trace (c : Chrome W) (pdf : PdfRef) (s : Sys W) :
    (downloadSinglePDF c pdf s).2.trace <+: (afterAttempt c pdf s).trace := by
  unfold afterAttempt
  split
  · exact List.prefix_refl _
  · exact notify_trace _ _ _

theorem downloadLoop_trace (c : Chrome W) (pdfs : List PdfRef) (acc : List Outcome)
    (s : Sys W) : s.trace <+: (downloadLoop c pdfs acc s).2.trace := by
  induction pdfs generalizing acc s with
  | nil => exact List.prefix_refl _
  | cons pdf rest ih =>
    rw [downloadLoop_cons]
    have h1 : s.trace <+: (downloadSinglePDF c pdf s).2.trace :=
      (List.prefix_append _ _).trans (downloadSinglePDF_trace c pdf s)
    exact (h1.trans (afterAttempt_trace c pdf s)).trans (ih _ _)

theorem downloadPDFs_trace (c : Chrome W) (pdfs : List PdfRef) (s : Sys W) :
    (downloadLoop c pdfs [] s).2.trace <+: (downloadPDFs c pdfs s).2.trace := by
  unfold downloadPDFs
  simp only
  split
  · exact notify_trace _ _ _
  · exact List.prefix_refl _

theorem stateBefore_trace (c : Chrome W) (pdfs : List PdfRef) (s : Sys W) (i : Nat) :
    (stateBefore c pdfs s i).trace <+: (downloadPDFs c pdfs s).2.trace := by
  refine List.IsPrefix.trans ?_ (downloadPDFs_trace c pdfs s)
  unfold stateBefore
  conv => rhs; rw [← List.take_append_drop i pdfs, downloadLoop_append]
  exact downloadLoop_trace c _ _ _

/-- C8: whatever the collaborators answer, `downloadPDFs` resolves (it does
not raise) with a list in which, at every index `i`, the outcome is that of the
retrieval of reference `i` run after the first `i` references were processed:
when that retrieval fails with message `e` the outcome has `success = false`
and `error = e`, and the outcome has `success = true` exactly when the
retrieval succeeded. The loop goes on after every reference, failed or not: the
system before reference `i + 1` is the one reference `i` left, each retrieval
makes at least its first collaborator call, and its calls are part of the final
trace. -/
theorem downloadPDFs_captures_failures (c : Chrome W) (pdfs : List PdfRef) (s : Sys W) :
    ∃ results, (downloadPDFs c pdfs s).1 = .ok results ∧
      ∀ (i : Nat) (pdf : PdfRef), pdfs[i]? = some pdf →
        (∃ o, results[i]? = some o ∧ o.pdf = pdf ∧
          (∀ e, (downloadSinglePDF c pdf (stateBefore c pdfs s i)).1 = .error e →
            o.success = false ∧ o.error = some e) ∧
          (o.success = true ↔
            ∃ r, (downloadSinglePDF c pdf (stateBefore c pdfs s i)).1 = .ok r)) ∧
        stateBefore c pdfs s (i + 1) = afterAttempt c pdf (stateBefore c pdfs s i) ∧
        (stateBefore c pdfs s i).trace ++ [firstCall pdf]
          <+: (downloadSinglePDF c pdf (stateBefore c pdfs s i)).2.trace ∧
        (downloadSinglePDF c pdf (stateBefore c pdfs s i)).2.trace
          <+: (downloadPDFs c pdfs s).2.trace := by
  refine ⟨(downloadLoop c pdfs [] s).1, rfl, ?_⟩
  intro i pdf hi
  refine ⟨⟨_, downloadLoop_getElem? c pdfs s i pdf hi, ?_, ?_, ?_⟩,
    stateBefore_succ c pdfs s i pdf hi, downloadSinglePDF_trace c pdf _, ?_⟩
  · unfold outcomeOf
    split <;> rfl
  · intro e he
    rw [he]
    exact ⟨rfl, rfl⟩
  · unfold outcomeOf
    split
    · rename_i r hr
      simp only [true_iff]
      exact ⟨r, hr⟩
    · rename_i e he
      simp only [Bool.false_eq_true, false_iff, not_exists]
      intro r hr
      rw [he] at hr
      cases hr
  · have h := stateBefore_trace c pdfs s (i + 1)
    rw [stateBefore_succ c pdfs s i pdf hi] at h
    exact (afterAttempt_trace c pdf _).trans h

/-- C8 (witness): in `batch` the transfer of the second reference is refused; the
promise resolves and the second outcome has `success = false` and the error
`Download blocked`. -/
theorem downloadPDFs_captures_failures_witness :
    batch[1]? = some remoteBlocked ∧
    (downloadSinglePDF chrome remoteBlocked (stateBefore chrome batch start 1)).1
      = .error "Download blocked".toList ∧
    ∃ results, (downloadPDFs chrome batch start).1 = .ok results ∧
      ∃ o, results[1]? = some o ∧ o.success = false ∧
        o.error = some "Download blocked".toList := by
  refine ⟨rfl, rfl, ?_⟩
  obtain ⟨results, hres, h⟩ := downloadPDFs_captures_failures chrome batch start
  obtain ⟨⟨o, ho, _, herr, _⟩, _⟩ := h 1 remoteBlocked rfl
  exact ⟨results, hres, o, ho, herr _ rfl⟩

/-- The notifications of `downloadPDFs` on `batch`: each
`chrome.storage.local.get` is called at once, the one of the failed second
reference before the first call of the third, and the two notifications are
created only when the pending callbacks run. -/
theorem downloadPDFs_notifications_pending :
    (downloadPDFs chrome batch start).2.trace =
      [Event.download (blobTransfer remoteReport remoteReport.url),
       Event.download (blobTransfer remoteBlocked remoteBlocked.url),
       Event.storageGet,
       Event.fetch localDenied.url, Event.tabsQuery,
       Event.sendMessage 7 (fallbackMessage localDenied),
       Event.storageGet] ∧
    (downloadPDFs chrome batch start).2.pending =
      [("Download Failed".toList, "Failed to download: plan.pdf".toList),
       ("Download Complete".toList, "Successfully downloaded 2 PDF(s)".toList)] ∧
    (runPending chrome (downloadPDFs chrome batch start).2).trace =
      (downloadPDFs chrome batch start).2.trace ++
        [Event.notification "Download Failed".toList "Failed to download: plan.pdf".toList,
         Event.notification "Download Complete".toList
           "Successfully downloaded 2 PDF(s)".toList] := by
  refine ⟨rfl, rfl, rfl⟩

/-! ## Retrieval: the blob strategy -/

theorem handleLocalFileDownloadTry_of_blob (c : Chrome W) (pdf : PdfRef) (s : Sys W)
    (resp : FetchResponse) (blob : Nat) (blobUrl : Str)
    (hfetch : (c.fetch pdf.url s.world).1 = .ok resp) (hok : resp.ok = true)
    (hblob : resp.blob = .ok blob)
    (hurl : (c.createObjectURL blob (c.fetch pdf.url s.world).2).1 = .ok blobUrl) :
    handleLocalFileDownloadTry c pdf s =
      (.ok (match (c.download (blobTransfer pdf blobUrl)
            (c.createObjectURL blob (c.fetch pdf.url s.world).2).2).1 with
        | .error message => .error message
        | .ok downloadId =>
          .ok { downloadId := some downloadId, filename := pdf.filename,
                method := some "blob".toList }),
       { world := (c.download (blobTransfer pdf blobUrl)
            (c.createObjectURL blob (c.fetch pdf.url s.world).2).2).2,
         trace := s.trace ++
           [Event.fetch pdf.url, Event.createObjectURL blob,
            Event.download (blobTransfer pdf blobUrl),
            Event.revokeScheduled blobUrl 1000],
         pending := s.pending }) := by
  unfold handleLocalFileDownloadTry blobTransfer
  simp only [callFetch, callCreateObjectURL, callDownload, record, hfetch, hok, hblob, hurl,
    Bool.not_true, Bool.false_eq_true, if_false, List.append_assoc, List.singleton_append,
    List.cons_append, List.nil_append]
  split <;> rfl

/-- C11 (amended): for a reference whose url starts with `file://`, whose
in-process fetch resolves with an ok status, whose `response.blob()` resolves
and for which `URL.createObjectURL` returns an object url,
`handleLocalFileDownload`, and `downloadSinglePDF` through it, makes exactly
one transfer call, with the object url, the sanitized filename,
`saveAs = false` and `conflictAction = 'uniquify'`, and no `tabs.query` or
`tabs.sendMessage` (the page-context fallback), also when the transfer is
refused: then the reference fails with the collaborator's message, since the
promise returned inside the `try` block is not awaited there. When the transfer
is accepted the reference succeeds with method `blob`. -/
theorem handleLocalFileDownload_blob (c : Chrome W) (pdf : PdfRef) (s : Sys W)
    (resp : FetchResponse) (blob : Nat) (blobUrl : Str)
    (hfile : startsWith pdf.url "file://".toList = true)
    (hfetch : (c.fetch pdf.url s.world).1 = .ok resp) (hok : resp.ok = true)
    (hblob : resp.blob = .ok blob)
    (hurl : (c.createObjectURL blob (c.fetch pdf.url s.world).2).1 = .ok blobUrl) :
    downloadSinglePDF c pdf s = handleLocalFileDownload c pdf s ∧
    (handleLocalFileDownload c pdf s).2.trace = s.trace ++
      [Event.fetch pdf.url, Event.createObjectURL blob,
       Event.download (blobTransfer pdf blobUrl),
       Event.revokeScheduled blobUrl 1000] ∧
    (∀ message,
      (c.download (blobTransfer pdf blobUrl)
        (c.createObjectURL blob (c.fetch pdf.url s.world).2).2).1 = .error message →
      (handleLocalFileDownload c pdf s).1 = .error message) ∧
    (∀ downloadId,
      (c.download (blobTransfer pdf blobUrl)
        (c.createObjectURL blob (c.fetch pdf.url s.world).2).2).1 = .ok downloadId →
      (handleLocalFileDownload c pdf s).1 =
        .ok { downloadId := some downloadId, filename := pdf.filename,
              method := some "blob".toList }) := by
  have htry := handleLocalFileDownloadTry_of_blob c pdf s resp blob blobUrl hfetch hok hblob hurl
  refine ⟨?_, ?_, ?_, ?_⟩
  · unfold downloadSinglePDF
    simp only [hfile, if_true]
  · unfold handleLocalFileDownload
    rw [htry]
  · intro message hm
    unfold handleLocalFileDownload
    rw [htry]
    simp only [hm]
  · intro downloadId hd
    unfold handleLocalFileDownload
    rw [htry]
    simp only [hd]

/-- C11 (witness): the fetch of `localNotes` answers 200 with a readable body,
the object url `blob:0` is created and the transfer is refused; the reference
fails with `Download blocked` after exactly one transfer call and no call of
the fallback. -/
theorem handleLocalFileDownload_blob_witness :
    startsWith localNotes.url "file://".toList = true ∧
    (chromeRefuses.createObjectURL 0 1).1 = .ok "blob:0".toList ∧
    (handleLocalFileDownload chromeRefuses localNotes start).1
      = .error "Download blocked".toList ∧
    (handleLocalFileDownload chromeRefuses localNotes start).2.trace =
      [Event.fetch localNotes.url, Event.createObjectURL 0,
       Event.download (blobTransfer localNotes "blob:0".toList),
       Event.revokeScheduled "blob:0".toList 1000] :=
  ⟨rfl, rfl,
   (handleLocalFileDownload_blob chromeRefuses localNotes start
      { ok := true, status := 200, blob := .ok 0 } 0 "blob:0".toList
      rfl rfl rfl rfl rfl).2.2.1 _ rfl,
   (handleLocalFileDownload_blob chromeRefuses localNotes start
      { ok := true, status := 200, blob := .ok 0 } 0 "blob:0".toList
      rfl rfl rfl rfl rfl).2.1⟩

/-- C11 (counterexample): the fetch of `localNotes` resolves with status 200
(`ok = true`) and yet no transfer call is made and the page-context fallback
runs, whose result (method `content-script`) is returned, in two cases: with
`chromeBodyFails`, where `response.blob()` rejects, and with
`chromeNoObjectURL`, where `URL.createObjectURL` throws. Both calls are inside
the `try` block, before the transfer. -/
theorem handleLocalFileDownload_falls_back_after_fetch_ok :
    startsWith localNotes.url "file://".toList = true ∧
    (∃ resp, (chromeBodyFails.fetch localNotes.url start.world).1 = .ok resp ∧
      resp.ok = true ∧ resp.status = 200) ∧
    (handleLocalFileDownload chromeBodyFails localNotes start).2.trace =
      [Event.fetch localNotes.url, Event.tabsQuery,
       Event.sendMessage 7 (fallbackMessage localNotes)] ∧
    (handleLocalFileDownload chromeBodyFails localNotes start).1 =
      .ok { downloadId := none, filename := localNotes.filename,
            method := some "content-script".toList } ∧
    (∃ resp, (chromeNoObjectURL.fetch localNotes.url start.world).1 = .ok resp ∧
      resp.ok = true ∧ resp.status = 200 ∧ resp.blob = .ok 0) ∧
    (handleLocalFileDownload chromeNoObjectURL localNotes start).2.trace =
      [Event.fetch localNotes.url, Event.createObjectURL 0, Event.tabsQuery,
       Event.sendMessage 7 (fallbackMessage localNotes)] ∧
    (handleLocalFileDownload chromeNoObjectURL localNotes start).1 =
      .ok { downloadId := none, filename := localNotes.filename,
            method := some "content-script".toList } :=
  ⟨rfl, ⟨_, rfl, rfl, rfl⟩, rfl, rfl, ⟨_, rfl, rfl, rfl, rfl⟩, rfl, rfl⟩

end RetrievalTheorems

end PdfExtension
